import Mathlib

/-!
Verification of the Speedy2D (miniquad fork) drawing surface and
window/event shell against its natural-language specification.

The embedding models scalars (`f32` in the source) as rationals: every
arithmetic step exercised by the theorems below is exact in `f32`
(integer-valued coordinates, halving, division by a power of two), so the
rational model is faithful on the inputs considered.

Source files embedded: `src/lib.rs` (Graphics2D / GLRenderer) and
`src/window_internal_quad.rs` (WindowHelperQuad / UserEventSenderQuad /
Stage).  Modules of the repository that are not available
(`dimen.rs`, `shape.rs`, `quad_gl.rs`, `window.rs`) are modelled from the
specification; each such definition carries a doc comment saying so.
-/

namespace Speedy2D

/-- A 2D vector of rational coordinates, embedding `dimen::Vec2` (`f32`
components in the source). -/
structure Vec2 where
  x : ℚ
  y : ℚ
deriving DecidableEq, Repr

/-- An RGBA color with rational components, embedding `color::Color`. -/
structure Color where
  r : ℚ
  g : ℚ
  b : ℚ
  a : ℚ
deriving DecidableEq, Repr

/-- `Color::WHITE`. -/
def Color.WHITE : Color := ⟨1, 1, 1, 1⟩

instance : Add Vec2 := ⟨fun u v => ⟨u.x + v.x, u.y + v.y⟩⟩

instance : Sub Vec2 := ⟨fun u v => ⟨u.x - v.x, u.y - v.y⟩⟩

/-- Scalar multiplication `v * s` (source: `Vec2 * f32`). -/
def Vec2.scale (v : Vec2) (s : ℚ) : Vec2 := ⟨v.x * s, v.y * s⟩

/-- `Vec2::ZERO`. -/
def Vec2.ZERO : Vec2 := ⟨0, 0⟩

/-!
## Graphics Surface: primitive submission

`Graphics2D::draw_triangle_three_color` is the primitive-submission
boundary of the Graphics Surface (spec §4.2: every drawing operation
decomposes into Draw Primitives handed to the Batching Renderer).  The
drawing operations below are embedded as emitters of the list of
submissions they make, in order.
-/

/-- A primitive submission made by the Graphics Surface: a solid triangle
with three clockwise vertex positions and three per-vertex colors
(`Graphics2D::draw_triangle_three_color` call). -/
inductive SurfaceCall where
  | triangle (v0 v1 v2 : Vec2) (c0 c1 c2 : Color)
deriving DecidableEq, Repr

/-- `Graphics2D::draw_triangle_three_color(vertex_positions_clockwise,
vertex_colors_clockwise)`: submits one Draw Primitive. -/
def drawTriangleThreeColor (v0 v1 v2 : Vec2) (c0 c1 c2 : Color) :
    List SurfaceCall :=
  [SurfaceCall.triangle v0 v1 v2 c0 c1 c2]

/-- `Graphics2D::draw_quad_four_color` (src/lib.rs:849-861): splits the
quad into the triangle `(vp[0], vp[1], vp[2])` with colors
`(vc[0], vc[1], vc[2])` followed by the triangle `(vp[2], vp[3], vp[0])`
with colors `(vc[2], vc[3], vc[0])`. -/
def drawQuadFourColor (v0 v1 v2 v3 : Vec2) (c0 c1 c2 c3 : Color) :
    List SurfaceCall :=
  drawTriangleThreeColor v0 v1 v2 c0 c1 c2 ++
    drawTriangleThreeColor v2 v3 v0 c2 c3 c0

/-- `Graphics2D::draw_quad` (src/lib.rs:867-873): the four-color variant
with the uniform color at every corner. -/
def drawQuad (v0 v1 v2 v3 : Vec2) (color : Color) : List SurfaceCall :=
  drawQuadFourColor v0 v1 v2 v3 color color color color

/-!
## Triangle membership

Geometry used to state the coverage property of the quad decomposition.
`edgeFn a b p` is the z-component of the cross product
`(b - a) × (p - a)`; a point lies in the closed triangle `a b c` iff all
three edge functions have the same (weak) sign.
-/

/-- Cross-product edge function of the directed edge `a → b` at `p`. -/
def edgeFn (a b p : Vec2) : ℚ :=
  (b.x - a.x) * (p.y - a.y) - (b.y - a.y) * (p.x - a.x)

/-- Membership in the closed triangle with vertices `a`, `b`, `c`
(either winding). -/
def inTriangle (a b c p : Vec2) : Prop :=
  (0 ≤ edgeFn a b p ∧ 0 ≤ edgeFn b c p ∧ 0 ≤ edgeFn c a p) ∨
    (edgeFn a b p ≤ 0 ∧ edgeFn b c p ≤ 0 ∧ edgeFn c a p ≤ 0)

/-- Membership in the open interior of the triangle `a b c`. -/
def inTriangleInterior (a b c p : Vec2) : Prop :=
  (0 < edgeFn a b p ∧ 0 < edgeFn b c p ∧ 0 < edgeFn c a p) ∨
    (edgeFn a b p < 0 ∧ edgeFn b c p < 0 ∧ edgeFn c a p < 0)

/-- Membership in the closed axis-aligned rectangle with top-left `tl`
and bottom-right `br` (screen coordinates, y grows downward). -/
def inRectanglePts (tl br p : Vec2) : Prop :=
  tl.x ≤ p.x ∧ p.x ≤ br.x ∧ tl.y ≤ p.y ∧ p.y ≤ br.y

/-!
## Rectangles and image drawing
-/

/-- Modelled from the spec: `shape.rs` is not under `src/`.  An
axis-aligned rectangle given by its top-left and bottom-right corners;
`top_right`/`bottom_left` are the induced corners (spec §4.2 uses
rectangles as pixel regions and as normalized UV sub-rectangles). -/
structure Rectangle where
  topLeft : Vec2
  bottomRight : Vec2
deriving DecidableEq, Repr

/-- `Rectangle::top_right()`. -/
def Rectangle.topRight (r : Rectangle) : Vec2 :=
  ⟨r.bottomRight.x, r.topLeft.y⟩

/-- `Rectangle::bottom_left()`. -/
def Rectangle.bottomLeft (r : Rectangle) : Vec2 :=
  ⟨r.topLeft.x, r.bottomRight.y⟩

/-- An opaque image handle (`ImageHandle`), identified by its texture id. -/
abbrev ImageHandle := ℕ

/-- The textured-triangle leaf
`Graphics2D::draw_triangle_image_tinted_three_color` is a stub
(`panic!()`) in the available source, so the image-drawing wrappers are
embedded relative to an arbitrary leaf behavior `emit`: the delegation
identities below hold for every possible leaf, including the actual one.
`emit` receives the three vertex positions, the three vertex colors, the
three normalized image coordinates, and the image handle. -/
def drawQuadImageTintedFourColor {α : Type}
    (emit : Vec2 × Vec2 × Vec2 → Color × Color × Color →
      Vec2 × Vec2 × Vec2 → ImageHandle → List α)
    (v0 v1 v2 v3 : Vec2) (c0 c1 c2 c3 : Color) (i0 i1 i2 i3 : Vec2)
    (img : ImageHandle) : List α :=
  emit (v0, v1, v2) (c0, c1, c2) (i0, i1, i2) img ++
    emit (v2, v3, v0) (c2, c3, c0) (i2, i3, i0) img

/-- `Graphics2D::draw_rectangle_image_subset_tinted`
(src/lib.rs:929-957): a textured quad over the rectangle's four corners
in the order top-left, top-right, bottom-right, bottom-left, with the
uniform tint color and the corresponding corners of the normalized UV
rectangle. -/
def drawRectangleImageSubsetTinted {α : Type}
    (emit : Vec2 × Vec2 × Vec2 → Color × Color × Color →
      Vec2 × Vec2 × Vec2 → ImageHandle → List α)
    (rect : Rectangle) (color : Color) (imageCoordsNormalized : Rectangle)
    (img : ImageHandle) : List α :=
  drawQuadImageTintedFourColor emit
    rect.topLeft rect.topRight rect.bottomRight rect.bottomLeft
    color color color color
    imageCoordsNormalized.topLeft imageCoordsNormalized.topRight
    imageCoordsNormalized.bottomRight imageCoordsNormalized.bottomLeft
    img

/-- `Graphics2D::draw_rectangle_image_tinted` (src/lib.rs:967-980): the
subset variant over the full normalized UV rectangle
`Rectangle::new(Vec2::ZERO, Vec2::new(1.0, 1.0))`. -/
def drawRectangleImageTinted {α : Type}
    (emit : Vec2 × Vec2 × Vec2 → Color × Color × Color →
      Vec2 × Vec2 × Vec2 → ImageHandle → List α)
    (rect : Rectangle) (color : Color) (img : ImageHandle) : List α :=
  drawRectangleImageSubsetTinted emit rect color
    ⟨Vec2.ZERO, ⟨1, 1⟩⟩ img

/-- `Graphics2D::draw_rectangle_image` (src/lib.rs:985-992): the tinted
variant with `Color::WHITE`. -/
def drawRectangleImage {α : Type}
    (emit : Vec2 × Vec2 × Vec2 → Color × Color × Color →
      Vec2 × Vec2 × Vec2 → ImageHandle → List α)
    (rect : Rectangle) (img : ImageHandle) : List α :=
  drawRectangleImageTinted emit rect Color.WHITE img

/-!
## Lines (`Graphics2D::draw_line`)
-/

/-- Square root on rationals by `Nat.sqrt` of numerator and denominator;
exact whenever both are perfect squares, which holds on every input the
theorems below evaluate it at (so it agrees there with the `f32` square
root used by the source). -/
def ratSqrt (q : ℚ) : ℚ :=
  (Nat.sqrt q.num.toNat : ℚ) / (Nat.sqrt q.den : ℚ)

/-- `Vec2::magnitude_squared()`. -/
def Vec2.magnitudeSquared (v : Vec2) : ℚ := v.x * v.x + v.y * v.y

/-- `Vec2::magnitude()`. -/
def Vec2.magnitude (v : Vec2) : ℚ := ratSqrt v.magnitudeSquared

/-- Modelled from the spec: `dimen.rs` is not under `src/`.
`Vec2::normalize` returns `None` for a zero-length vector (spec §4.2:
"zero-length direction ... no perpendicular direction is defined") and
otherwise the vector divided by its magnitude. -/
def Vec2.normalizeOpt (v : Vec2) : Option Vec2 :=
  if v.magnitude = 0 then none
  else some ⟨v.x / v.magnitude, v.y / v.magnitude⟩

/-- Modelled from the spec: `dimen.rs` is not under `src/`.  Rotation by
90 degrees clockwise in screen coordinates (y grows downward). -/
def Vec2.rotate90DegreesClockwise (v : Vec2) : Vec2 := ⟨-v.y, v.x⟩

/-- Modelled from the spec: `dimen.rs` is not under `src/`.  Rotation by
90 degrees anticlockwise in screen coordinates (y grows downward). -/
def Vec2.rotate90DegreesAnticlockwise (v : Vec2) : Vec2 := ⟨v.y, -v.x⟩

/-- `Graphics2D::draw_line` (src/lib.rs:1217-1253): normalizes the line
direction (returning with no submission when that fails), extrudes by
half the thickness perpendicular to the direction on both sides of both
endpoints, and draws the resulting quad. -/
def drawLine (startPosition endPosition : Vec2) (thickness : ℚ)
    (color : Color) : List SurfaceCall :=
  match (endPosition - startPosition).normalizeOpt with
  | none => []
  | some gradientNormalized =>
    let gradientThickness := gradientNormalized.scale (thickness / 2)
    let offsetAnticlockwise :=
      gradientThickness.rotate90DegreesAnticlockwise
    let offsetClockwise := gradientThickness.rotate90DegreesClockwise
    let startAnticlockwise := startPosition + offsetAnticlockwise
    let startClockwise := startPosition + offsetClockwise
    let endAnticlockwise := endPosition + offsetAnticlockwise
    let endClockwise := endPosition + offsetClockwise
    drawQuad startAnticlockwise endAnticlockwise endClockwise
      startClockwise color

/-- The vertex positions of a primitive submission. -/
def SurfaceCall.vertexList : SurfaceCall → List Vec2
  | .triangle v0 v1 v2 _ _ _ => [v0, v1, v2]

/-- All vertex positions submitted by a list of surface calls. -/
def emittedVertices (calls : List SurfaceCall) : List Vec2 :=
  (calls.map SurfaceCall.vertexList).flatten

/-!
## Frame lifecycle and batching (`GLRenderer` / `Graphics2D`)

The Batching Renderer (`quad_gl.rs`) is not under `src/`; per spec §4.1
it accumulates submitted primitives and `QuadGl::draw` flushes all
accumulated geometry to the GPU backend in one go.  The frame lifecycle
(`begin_frame` / `end_frame` / `draw_frame`) is embedded from
src/lib.rs:566-573 and 1338-1354.
-/

/-- `Graphics2D::pixel_perfect_projection_matrix`
(src/lib.rs:1342-1347): an orthographic projection mapping logical
coordinates `(0, 0)`–`(width/dpi, height/dpi)` onto the viewport;
represented by its right/bottom extent. -/
def pixelPerfectProjection (width height dpi : ℚ) : ℚ × ℚ :=
  (width / dpi, height / dpi)

/-- A call issued by the renderer to the GPU backend:
`QuadGl::draw` of all accumulated geometry under a projection, or
`commit_frame()` (the present). -/
inductive BackendCall (Prim : Type) where
  | drawBatch (prims : List Prim) (proj : ℚ × ℚ)
  | commitFrame
deriving DecidableEq, Repr

/-- Renderer state: the accumulated (not yet flushed) primitives and the
ordered trace of backend calls issued so far. -/
structure RendererState (Prim : Type) where
  batch : List Prim
  backendTrace : List (BackendCall Prim)
deriving DecidableEq, Repr

/-- `Graphics2D::begin_frame` (src/lib.rs:1338-1340): `gl.reset()`
discards per-frame transient state; no backend call is made. -/
def beginFrame {Prim : Type} (g : RendererState Prim) :
    RendererState Prim :=
  { g with batch := [] }

/-- Modelled from the spec: `quad_gl.rs` is not under `src/`.  A drawing
call appends its primitive to the accumulated geometry (spec §4.1). -/
def submitPrim {Prim : Type} (g : RendererState Prim) (p : Prim) :
    RendererState Prim :=
  { g with batch := g.batch ++ [p] }

/-- Submit a list of primitives in order. -/
def submitAll {Prim : Type} (g : RendererState Prim)
    (ps : List Prim) : RendererState Prim :=
  ps.foldl submitPrim g

/-- `Graphics2D::end_frame` (src/lib.rs:1349-1354): flushes all
accumulated geometry to the backend (`gl.draw` under the pixel-perfect
projection) and then issues `commit_frame()`. -/
def endFrame {Prim : Type} (g : RendererState Prim) (proj : ℚ × ℚ) :
    RendererState Prim :=
  { batch := [],
    backendTrace :=
      g.backendTrace ++ [BackendCall.drawBatch g.batch proj,
        BackendCall.commitFrame] }

/-- `GLRenderer::draw_frame` (src/lib.rs:566-573): `begin_frame`, then
the user callback's submissions `subs`, then `end_frame`. -/
def drawFrame {Prim : Type} (g : RendererState Prim)
    (subs : List Prim) (proj : ℚ × ℚ) : RendererState Prim :=
  endFrame (submitAll (beginFrame g) subs) proj

/-!
## Window helper state and the event loop
(`WindowHelperQuad`, src/window_internal_quad.rs:47-185)
-/

/-- The mutable flags of `WindowHelperQuad`: the redraw-requested flag
and the terminate-requested flag (both `false` at construction,
src/window_internal_quad.rs:67-75). -/
structure HelperState where
  redrawRequested : Bool
  terminateRequested : Bool
deriving DecidableEq, Repr

/-- `WindowHelperQuad::new`: both flags start `false`. -/
def HelperState.initial : HelperState := ⟨false, false⟩

/-- The helper operations that mutate `HelperState`:
`request_redraw` (src:137-141), `set_redraw_requested` (src:91-95) and
`terminate_loop` (src:106-109). -/
inductive HelperOp where
  | requestRedraw
  | setRedrawRequested (b : Bool)
  | terminateLoop
deriving DecidableEq, Repr

/-- Effect of one helper operation, embedded from
src/window_internal_quad.rs: `request_redraw` sets the redraw flag,
`set_redraw_requested b` writes it, `terminate_loop` sets the
terminate-requested flag to `true` (and nothing ever writes `false` to
it). -/
def applyHelperOp (s : HelperState) : HelperOp → HelperState
  | .requestRedraw => { s with redrawRequested := true }
  | .setRedrawRequested b => { s with redrawRequested := b }
  | .terminateLoop => { s with terminateRequested := true }

/-- `WindowEventLoopAction` (continue or exit the loop). -/
inductive WindowEventLoopAction where
  | Continue
  | Exit
deriving DecidableEq, Repr

/-- `WindowHelperQuad::get_event_loop_action`
(src/window_internal_quad.rs:98-104): `Exit` iff the
terminate-requested flag is set. -/
def getEventLoopAction (s : HelperState) : WindowEventLoopAction :=
  match s.terminateRequested with
  | true => WindowEventLoopAction.Exit
  | false => WindowEventLoopAction.Continue

/-- One backend tick: the callbacks run to completion, performing their
helper operations in order. -/
def runTick (s : HelperState) (ops : List HelperOp) : HelperState :=
  ops.foldl applyHelperOp s

/-- Modelled from the spec: the event-loop glue (`window.rs` /
`DrawingWindowHandler`) is not under `src/`.  Per spec §4.3 the shell
runs each backend tick to completion and then observes the event-loop
action, exiting when it is `Exit`.  Returns the list of ticks actually
executed (each one whole) together with the final helper state. -/
def runLoop (s : HelperState) :
    List (List HelperOp) → List (List HelperOp) × HelperState
  | [] => ([], s)
  | t :: ts =>
    let s' := runTick s t
    match getEventLoopAction s' with
    | .Exit => ([t], s')
    | .Continue =>
      let r := runLoop s' ts
      (t :: r.1, r.2)

/-!
## User event queue (`Stage::update` / `UserEventSenderQuad`)
-/

/-- `Stage::update` (src/window_internal_quad.rs:590-601): performs one
`try_recv` on the user-event channel per tick; on `Ok(x)` it delivers
`x` to `on_user_event`, on `Err` it does nothing.  The channel is the
standard FIFO mpsc queue.  Returns the remaining queue and the events
delivered during this tick (at most one). -/
def stageUpdate {E : Type} (q : List E) : List E × List E :=
  match q with
  | [] => ([], [])
  | e :: rest => (rest, [e])

/-- `n` consecutive ticks of `Stage::update` with no new arrivals:
returns the remaining queue and all events delivered, in delivery
order. -/
def runUpdates {E : Type} (q : List E) : ℕ → List E × List E
  | 0 => (q, [])
  | n + 1 =>
    let r := stageUpdate q
    let rest := runUpdates r.1 n
    (rest.1, r.2 ++ rest.2)

/-- One tick during which `arrivals` are enqueued mid-tick: the single
`try_recv` happens against the queue as it stood at the start of the
tick, and the arrivals are appended afterwards (visible from the next
tick on). -/
def stageUpdateWithArrivals {E : Type} (q arrivals : List E) :
    List E × List E :=
  let r := stageUpdate q
  (r.1 ++ arrivals, r.2)

/-- Whether the event-loop end of the user-event channel still exists
(`active`) or the loop has stopped and the `Receiver` was dropped
(`disconnected`). -/
inductive ChannelState where
  | active
  | disconnected
deriving DecidableEq, Repr

/-- `std::sync::mpsc::Sender::send` (standard library, external):
enqueues and returns success while a receiver exists; once the receiver
is dropped it returns an error and the event is not enqueued. -/
def mpscSend {E : Type} (st : ChannelState) (q : List E) (e : E) :
    List E × Bool :=
  match st with
  | .active => (q ++ [e], true)
  | .disconnected => (q, false)

/-- `EventLoopSendError`: the typed error the sender is supposed to
receive when the event loop no longer exists. -/
inductive EventLoopSendError where
  | eventLoopNoLongerExists
deriving DecidableEq, Repr

/-- `UserEventSenderQuad::send_event`
(src/window_internal_quad.rs:514-518): calls `send`, discards its
result, and returns `Ok(())` unconditionally. -/
def sendEvent {E : Type} (st : ChannelState) (q : List E) (e : E) :
    List E × Except EventLoopSendError Unit :=
  ((mpscSend st q e).1, Except.ok ())

/-!
## Resize events (`Stage::resize_event`)
-/

/-- A vector of two `u32` components (`UVec2`). -/
structure UVec2 where
  x : ℕ
  y : ℕ
deriving DecidableEq, Repr

/-- Rust `as u32` applied to a float value: truncation toward zero,
saturating at `0` for negative inputs. -/
def rustAsU32 (q : ℚ) : ℕ := (Int.floor q).toNat

/-- `Stage::resize_event` (src/window_internal_quad.rs:551-554):
divides the new physical size by the DPI scale and truncates each
component to `u32`; this logical size is what `on_resize` observes. -/
def resizeEventLogicalSize (width height dpi : ℚ) : UVec2 :=
  ⟨rustAsU32 (width / dpi), rustAsU32 (height / dpi)⟩

/-- Modelled from the spec: the resize dispatch path (`window.rs` /
`DrawingWindowHandler::on_resize`) is not under `src/`.  Per spec §3
the redraw-pending flag is "implicitly set on resize"; the handler
observes the logical size computed by `Stage::resize_event`. -/
def onResizeDispatch (width height dpi : ℚ) (s : HelperState) :
    HelperState × UVec2 :=
  ({ s with redrawRequested := true },
    resizeEventLogicalSize width height dpi)

/-!
## Text drawing (`Graphics2D::draw_text` / `draw_text_cropped`)
-/

/-- The fields of `FormattedTextBlock` read by the drawing code: the
font (`f`), the scale, the opaque laid-out text, and the vertical
offset `dim.offset_y`. -/
structure FormattedTextBlock (Text : Type) where
  fontId : ℕ
  scale : ℚ
  text : Text
  offsetY : ℚ

/-- `text::TextParams` as built by `draw_text` / `draw_text_cropped`. -/
structure TextParams where
  color : Color
  fontId : ℕ
  fontSize : ℕ
  fontScale : ℚ
  fontScaleAspect : ℚ
  rotation : ℚ

/-- Rust `as u16` applied to a float value: truncation toward zero,
saturating at `0` below and at `65535` above. -/
def rustAsU16 (q : ℚ) : ℕ := min (Int.floor q).toNat 65535

/-- `Graphics2D::draw_text` (src/lib.rs:708-736): builds `TextParams`
with the block's font, `text.scale as u16`, scale factors `1.0` and
rotation `0.0`, and hands the block's text to `text::draw_text_ex` at
`(position.x, position.y + text.dim.offset_y)`.  `text.rs` is not under
`src/`, so the glyph emission `drawTextEx` is left as a parameter. -/
def drawText {Text G : Type}
    (drawTextEx : TextParams → Text → ℚ → ℚ → G)
    (position : Vec2) (color : Color)
    (block : FormattedTextBlock Text) : G :=
  drawTextEx
    ⟨color, block.fontId, rustAsU16 block.scale, 1, 1, 0⟩
    block.text position.x (position.y + block.offsetY)

/-- `Graphics2D::draw_text_cropped` (src/lib.rs:746-776): identical to
`draw_text` except that the font size is computed as
`(text.scale * 1.0) as u16`; the `crop_window` argument is accepted but
never used (the body carries a `TODO need to actually crop` comment at
src/lib.rs:754). -/
def drawTextCropped {Text G : Type}
    (drawTextEx : TextParams → Text → ℚ → ℚ → G)
    (position : Vec2) (cropWindow : Rectangle) (color : Color)
    (block : FormattedTextBlock Text) : G :=
  drawTextEx
    ⟨color, block.fontId, rustAsU16 (block.scale * 1), 1, 1, 0⟩
    block.text position.x (position.y + block.offsetY)

/-!
## Helper lemmas
-/

theorem Vec2.add_def (u v : Vec2) : u + v = ⟨u.x + v.x, u.y + v.y⟩ := rfl

theorem Vec2.sub_def (u v : Vec2) : u - v = ⟨u.x - v.x, u.y - v.y⟩ := rfl

theorem ratSqrt_zero : ratSqrt 0 = 0 := by
  unfold ratSqrt
  norm_num

theorem ratSqrt_ten_thousand : ratSqrt 10000 = 100 := by
  unfold ratSqrt
  rw [Rat.num_ofNat, Rat.den_ofNat]
  rw [show Int.toNat 10000 = 10000 from rfl]
  rw [show (10000 : ℕ) = 100 * 100 from by norm_num]
  rw [Nat.sqrt_eq, Nat.sqrt_one]
  norm_num

theorem submitAll_spec {Prim : Type} (g : RendererState Prim)
    (ps : List Prim) :
    submitAll g ps = ⟨g.batch ++ ps, g.backendTrace⟩ := by
  induction ps generalizing g with
  | nil => simp [submitAll]
  | cons p ps ih =>
    show submitAll (submitPrim g p) ps = _
    rw [ih]
    simp [submitPrim]

theorem applyHelperOp_terminate_mono (s : HelperState) (op : HelperOp)
    (h : s.terminateRequested = true) :
    (applyHelperOp s op).terminateRequested = true := by
  cases op <;> simp [applyHelperOp, h]

theorem runTick_terminate_mono (s : HelperState) (ops : List HelperOp)
    (h : s.terminateRequested = true) :
    (runTick s ops).terminateRequested = true := by
  induction ops generalizing s with
  | nil => exact h
  | cons op ops ih =>
    exact ih (applyHelperOp s op) (applyHelperOp_terminate_mono s op h)

theorem runTick_no_terminate (s : HelperState) (ops : List HelperOp)
    (h : HelperOp.terminateLoop ∉ ops) :
    (runTick s ops).terminateRequested = s.terminateRequested := by
  induction ops generalizing s with
  | nil => rfl
  | cons op ops ih =>
    have hop : op ≠ HelperOp.terminateLoop := fun he => h (he ▸ List.mem_cons_self op ops)
    have htail : HelperOp.terminateLoop ∉ ops := fun hm => h (List.mem_cons_of_mem op hm)
    have happ : (applyHelperOp s op).terminateRequested = s.terminateRequested := by
      cases op with
      | requestRedraw => rfl
      | setRedrawRequested b => rfl
      | terminateLoop => exact absurd rfl hop
    calc (runTick s (op :: ops)).terminateRequested
        = (runTick (applyHelperOp s op) ops).terminateRequested := rfl
      _ = (applyHelperOp s op).terminateRequested := ih (applyHelperOp s op) htail
      _ = s.terminateRequested := happ

theorem runTick_mem_terminate (s : HelperState) (ops : List HelperOp)
    (h : HelperOp.terminateLoop ∈ ops) :
    (runTick s ops).terminateRequested = true := by
  induction ops generalizing s with
  | nil => exact absurd h (List.not_mem_nil _)
  | cons op ops ih =>
    by_cases hop : op = HelperOp.terminateLoop
    · subst hop
      exact runTick_terminate_mono _ ops rfl
    · have : HelperOp.terminateLoop ∈ ops := by
        rcases List.mem_cons.mp h with h' | h'
        · exact absurd h'.symm hop
        · exact h'
      exact ih (applyHelperOp s op) this

theorem runLoop_exits_after_first_terminating_tick
    (s : HelperState) (before : List (List HelperOp))
    (tick : List HelperOp) (post : List (List HelperOp))
    (hs : s.terminateRequested = false)
    (hbefore : ∀ t ∈ before, HelperOp.terminateLoop ∉ t)
    (htick : HelperOp.terminateLoop ∈ tick) :
    (runLoop s (before ++ tick :: post)).1 = before ++ [tick] := by
  induction before generalizing s with
  | nil =>
    have hterm := runTick_mem_terminate s tick htick
    simp [runLoop, getEventLoopAction, hterm]
  | cons t ts ih =>
    have hnot : HelperOp.terminateLoop ∉ t :=
      hbefore t (List.mem_cons_self t ts)
    have hflag : (runTick s t).terminateRequested = false := by
      rw [runTick_no_terminate s t hnot, hs]
    have htail : ∀ u ∈ ts, HelperOp.terminateLoop ∉ u := fun u hu =>
      hbefore u (List.mem_cons_of_mem t hu)
    simp only [List.cons_append, runLoop, getEventLoopAction, hflag,
      List.append_eq]
    rw [ih (runTick s t) hflag htail]

theorem drawLine_eq_of_normalize_some (s e : Vec2) (t : ℚ) (c : Color)
    (g : Vec2) (h : (e - s).normalizeOpt = some g) :
    drawLine s e t c =
      drawQuad (s + (g.scale (t / 2)).rotate90DegreesAnticlockwise)
        (e + (g.scale (t / 2)).rotate90DegreesAnticlockwise)
        (e + (g.scale (t / 2)).rotate90DegreesClockwise)
        (s + (g.scale (t / 2)).rotate90DegreesClockwise) c := by
  unfold drawLine
  rw [h]

theorem runUpdates_spec {E : Type} (q : List E) (n : ℕ) :
    (runUpdates q n).2 = q.take n ∧ (runUpdates q n).1 = q.drop n := by
  induction n generalizing q with
  | zero => simp [runUpdates]
  | succ n ih =>
    cases q with
    | nil =>
      have := ih ([] : List E)
      simp [runUpdates, stageUpdate, this.1, this.2]
    | cons e rest =>
      have := ih rest
      simp [runUpdates, stageUpdate, this.1, this.2]

/-!
## Claim theorems
-/

/-- Claim C1: `end_frame` always issues the batch flush (the renderer
draw of all accumulated geometry) before issuing the present/commit
call, and `draw_frame` brackets the user callback between `begin_frame`
and `end_frame`, so every primitive submitted inside the callback is
flushed to the backend before the frame is presented (the flushed batch
is exactly the list of submissions, and the flush immediately precedes
the present in the backend trace). -/
theorem end_frame_flushes_batch_before_present :
    ∀ (Prim : Type) (g : RendererState Prim) (subs : List Prim)
      (proj : ℚ × ℚ),
      (endFrame g proj).backendTrace =
        g.backendTrace ++
          [BackendCall.drawBatch g.batch proj, BackendCall.commitFrame]
      ∧ (drawFrame g subs proj).backendTrace =
        g.backendTrace ++
          [BackendCall.drawBatch subs proj, BackendCall.commitFrame] := by
  intro Prim g subs proj
  refine ⟨rfl, ?_⟩
  unfold drawFrame
  rw [submitAll_spec]
  rfl

/-- Claim C2: `draw_quad_four_color` emits exactly two triangles, the
first with vertices `(v0, v1, v2)` and colors `(c0, c1, c2)` and the
second with vertices `(v2, v3, v0)` and colors `(c2, c3, c0)`;
`draw_quad` with a uniform color is the same decomposition, and for
the quad `[(0,0),(10,0),(10,10),(0,10)]` the two triangles' union is
exactly the closed 10×10 rectangle (no gap) while their interiors are
disjoint (no overlap). -/
theorem draw_quad_decomposition_and_square_coverage :
    (∀ (v0 v1 v2 v3 : Vec2) (c0 c1 c2 c3 : Color),
      drawQuadFourColor v0 v1 v2 v3 c0 c1 c2 c3 =
        [SurfaceCall.triangle v0 v1 v2 c0 c1 c2,
          SurfaceCall.triangle v2 v3 v0 c2 c3 c0])
    ∧ (∀ color : Color,
        drawQuad ⟨0, 0⟩ ⟨10, 0⟩ ⟨10, 10⟩ ⟨0, 10⟩ color =
          [SurfaceCall.triangle ⟨0, 0⟩ ⟨10, 0⟩ ⟨10, 10⟩
              color color color,
            SurfaceCall.triangle ⟨10, 10⟩ ⟨0, 10⟩ ⟨0, 0⟩
              color color color])
    ∧ (∀ p : Vec2,
        (inTriangle ⟨0, 0⟩ ⟨10, 0⟩ ⟨10, 10⟩ p ∨
            inTriangle ⟨10, 10⟩ ⟨0, 10⟩ ⟨0, 0⟩ p) ↔
          inRectanglePts ⟨0, 0⟩ ⟨10, 10⟩ p)
    ∧ (∀ p : Vec2,
        ¬(inTriangleInterior ⟨0, 0⟩ ⟨10, 0⟩ ⟨10, 10⟩ p ∧
            inTriangleInterior ⟨10, 10⟩ ⟨0, 10⟩ ⟨0, 0⟩ p)) := by
  refine ⟨fun _ _ _ _ _ _ _ _ => rfl, fun _ => rfl, ?_, ?_⟩
  · intro p
    simp only [inTriangle, inRectanglePts, edgeFn]
    norm_num
    constructor
    · rintro ((⟨h1, h2, h3⟩ | ⟨h1, h2, h3⟩) | (⟨h1, h2, h3⟩ | ⟨h1, h2, h3⟩)) <;>
        exact ⟨by nlinarith, by nlinarith, by nlinarith, by nlinarith⟩
    · rintro ⟨hx0, hx10, hy0, hy10⟩
      rcases le_total p.y p.x with h | h
      · exact Or.inl (Or.inl ⟨by nlinarith, by nlinarith, by nlinarith⟩)
      · exact Or.inr (Or.inl ⟨by nlinarith, by nlinarith, by nlinarith⟩)
  · intro p
    rintro ⟨ha, hb⟩
    simp only [inTriangleInterior, edgeFn] at ha hb
    norm_num at ha hb
    rcases ha with ⟨h1, h2, h3⟩ | ⟨h1, h2, h3⟩ <;>
      rcases hb with ⟨h4, h5, h6⟩ | ⟨h4, h5, h6⟩ <;>
        nlinarith

/-- Witness for C2: the point `(3, 4)` lies in the second triangle of
the decomposition and hence, by the coverage property, in the 10×10
rectangle. -/
theorem draw_quad_square_coverage_witness :
    inRectanglePts ⟨0, 0⟩ ⟨10, 10⟩ ⟨3, 4⟩ ∧
      inTriangle ⟨10, 10⟩ ⟨0, 10⟩ ⟨0, 0⟩ ⟨3, 4⟩ :=
  ⟨(draw_quad_decomposition_and_square_coverage.2.2.1 ⟨3, 4⟩).mp
      (Or.inr (Or.inl (by norm_num [edgeFn]))),
    Or.inl (by norm_num [edgeFn])⟩

/-- Claim C3: `terminate_loop()` sets the termination-requested flag,
the flag is monotonic (no helper operation ever resets it), and the
event loop — which observes `get_event_loop_action` at the end of each
tick — stops right after the first tick containing a `terminate_loop`
call completes, never mid-tick: the executed ticks are exactly the
preceding ticks plus that whole tick. -/
theorem terminate_loop_stops_after_current_tick :
    (∀ (s : HelperState) (op : HelperOp),
      s.terminateRequested = true →
        (applyHelperOp s op).terminateRequested = true)
    ∧ (∀ s : HelperState,
        (applyHelperOp s HelperOp.terminateLoop).terminateRequested =
          true)
    ∧ (∀ (s : HelperState) (ticksBefore : List (List HelperOp))
        (tick : List HelperOp) (ticksAfter : List (List HelperOp)),
        s.terminateRequested = false →
        (∀ t ∈ ticksBefore, HelperOp.terminateLoop ∉ t) →
        HelperOp.terminateLoop ∈ tick →
        (runLoop s (ticksBefore ++ tick :: ticksAfter)).1 =
          ticksBefore ++ [tick]) :=
  ⟨applyHelperOp_terminate_mono, fun _ => rfl,
    fun s tb tick ta hs hb ht =>
      runLoop_exits_after_first_terminating_tick s tb tick ta hs hb ht⟩

/-- Witness for C3: a concrete three-tick schedule where the second
tick calls `terminate_loop`; exactly the first two ticks execute. -/
theorem terminate_loop_stops_after_current_tick_witness :
    (HelperState.initial.terminateRequested = false)
    ∧ (runLoop HelperState.initial
        ([[HelperOp.requestRedraw]] ++
          [HelperOp.terminateLoop, HelperOp.requestRedraw] ::
            [[HelperOp.setRedrawRequested false]])).1 =
      [[HelperOp.requestRedraw]] ++
        [[HelperOp.terminateLoop, HelperOp.requestRedraw]] :=
  ⟨rfl,
    terminate_loop_stops_after_current_tick.2.2 HelperState.initial
      [[HelperOp.requestRedraw]]
      [HelperOp.terminateLoop, HelperOp.requestRedraw]
      [[HelperOp.setRedrawRequested false]]
      rfl (by decide) (by decide)⟩

/-- Counterexample to Claim C4 as stated: with two events enqueued
before a single tick, only one event is drained during that tick
(`Stage::update` performs a single `try_recv` per tick), so the total
drained over the ticks is 1, not the total enqueued 2. -/
theorem user_event_queue_single_tick_counterexample :
    ¬((runUpdates ([0, 1] : List ℕ) 1).2.length =
        ([0, 1] : List ℕ).length) := by
  decide

/-- Claim C4 (amended): each tick drains at most one user event — the
oldest pending one — so over `n` ticks the events delivered are
exactly the first `min n |q|` enqueued events, in enqueue order (hence
per-producer send order is preserved), each exactly once, with the
remainder still queued (no loss, no duplication); and an event arriving
mid-tick is never delivered in that same tick (the tick's single
`try_recv` reads only the queue as it stood at the start of the
tick). -/
theorem user_event_queue_drains_one_event_per_tick :
    (∀ (E : Type) (q : List E) (n : ℕ),
      (runUpdates q n).2 = q.take n
      ∧ (runUpdates q n).1 = q.drop n
      ∧ (runUpdates q n).2.length = min n q.length)
    ∧ (∀ (E : Type) (q arrivals : List E),
        (stageUpdateWithArrivals q arrivals).2 = q.take 1) := by
  constructor
  · intro E q n
    have h := runUpdates_spec q n
    exact ⟨h.1, h.2, by rw [h.1, List.length_take]⟩
  · intro E q arrivals
    cases q <;> rfl

/-- Claim C5: a resize event carrying physical size `(width, height)`
while the DPI scale is `dpi` makes `on_resize` observe the logical size
`(width / dpi, height / dpi)` truncated to whole pixels (the value `L`
with `L ≤ P/D < L + 1` per component), and the resize dispatch sets the
redraw-pending flag to true. -/
theorem resize_reports_logical_size_and_sets_redraw :
    ∀ (width height dpi : ℚ) (s : HelperState),
      0 < dpi → 0 ≤ width → 0 ≤ height →
      ((onResizeDispatch width height dpi s).1.redrawRequested = true)
      ∧ (((onResizeDispatch width height dpi s).2.x : ℚ) ≤ width / dpi
        ∧ width / dpi <
            ((onResizeDispatch width height dpi s).2.x : ℚ) + 1)
      ∧ (((onResizeDispatch width height dpi s).2.y : ℚ) ≤ height / dpi
        ∧ height / dpi <
            ((onResizeDispatch width height dpi s).2.y : ℚ) + 1) := by
  intro w h dpi s hdpi hw hh
  have hwd : (0 : ℚ) ≤ w / dpi := div_nonneg hw hdpi.le
  have hhd : (0 : ℚ) ≤ h / dpi := div_nonneg hh hdpi.le
  have hx : ((rustAsU32 (w / dpi) : ℕ) : ℚ) = ((⌊w / dpi⌋ : ℤ) : ℚ) := by
    unfold rustAsU32
    exact_mod_cast congrArg (fun z : ℤ => (z : ℚ))
      (Int.toNat_of_nonneg (Int.floor_nonneg.mpr hwd))
  have hy : ((rustAsU32 (h / dpi) : ℕ) : ℚ) = ((⌊h / dpi⌋ : ℤ) : ℚ) := by
    unfold rustAsU32
    exact_mod_cast congrArg (fun z : ℤ => (z : ℚ))
      (Int.toNat_of_nonneg (Int.floor_nonneg.mpr hhd))
  refine ⟨rfl, ⟨?_, ?_⟩, ⟨?_, ?_⟩⟩
  · show ((rustAsU32 (w / dpi) : ℕ) : ℚ) ≤ w / dpi
    rw [hx]
    exact Int.floor_le _
  · show w / dpi < ((rustAsU32 (w / dpi) : ℕ) : ℚ) + 1
    rw [hx]
    exact Int.lt_floor_add_one _
  · show ((rustAsU32 (h / dpi) : ℕ) : ℚ) ≤ h / dpi
    rw [hy]
    exact Int.floor_le _
  · show h / dpi < ((rustAsU32 (h / dpi) : ℕ) : ℚ) + 1
    rw [hy]
    exact Int.lt_floor_add_one _

/-- Witness for C5: physical size 1280×1025 at DPI scale 2 reports the
logical size (640, 512) — within one pixel of `P / D` — and sets the
redraw flag. -/
theorem resize_reports_logical_size_witness :
    (0 : ℚ) < 2 ∧ (0 : ℚ) ≤ 1280 ∧ (0 : ℚ) ≤ 1025 ∧
    (((onResizeDispatch 1280 1025 2 HelperState.initial).1.redrawRequested
        = true)
      ∧ (((onResizeDispatch 1280 1025 2 HelperState.initial).2.x : ℚ) ≤
            1280 / 2
        ∧ (1280 : ℚ) / 2 <
            ((onResizeDispatch 1280 1025 2
              HelperState.initial).2.x : ℚ) + 1)
      ∧ (((onResizeDispatch 1280 1025 2 HelperState.initial).2.y : ℚ) ≤
            1025 / 2
        ∧ (1025 : ℚ) / 2 <
            ((onResizeDispatch 1280 1025 2
              HelperState.initial).2.y : ℚ) + 1)) :=
  ⟨by norm_num, by norm_num, by norm_num,
    resize_reports_logical_size_and_sets_redraw 1280 1025 2
      HelperState.initial (by norm_num) (by norm_num) (by norm_num)⟩

/-- Claim C6: `draw_line` with equal start and end positions is a
silent no-op for every thickness and color: it emits no primitive,
makes no drawing call, and leaves the renderer state unchanged. -/
theorem draw_line_zero_length_silent_noop :
    ∀ (p : Vec2) (thickness : ℚ) (color : Color),
      drawLine p p thickness color = []
      ∧ ∀ g : RendererState SurfaceCall,
          submitAll g (drawLine p p thickness color) = g := by
  intro p t c
  have hz : p - p = (⟨0, 0⟩ : Vec2) := by
    rw [Vec2.sub_def]
    simp
  have hmag : Vec2.magnitude ⟨0, 0⟩ = 0 := by
    have hms : Vec2.magnitudeSquared ⟨0, 0⟩ = 0 := by
      unfold Vec2.magnitudeSquared
      norm_num
    unfold Vec2.magnitude
    rw [hms, ratSqrt_zero]
  have hn : Vec2.normalizeOpt (⟨0, 0⟩ : Vec2) = none := by
    unfold Vec2.normalizeOpt
    rw [hmag]
    simp
  have hempty : drawLine p p t c = [] := by
    unfold drawLine
    rw [hz, hn]
  exact ⟨hempty, fun g => by rw [hempty]; rfl⟩

/-- Claim C7: `draw_line((0,10), (100,10), thickness 1)` emits a single
quad — the one with corners `(0, 9.5)`, `(100, 9.5)`, `(100, 10.5)`,
`(0, 10.5)` — whose vertices have bounding box exactly `(0, 9.5)` to
`(100, 10.5)`: every emitted vertex lies in that box and both extreme
corners are attained. -/
theorem draw_line_horizontal_unit_thickness_bounding_box :
    ∀ color : Color,
      drawLine ⟨0, 10⟩ ⟨100, 10⟩ 1 color =
        drawQuad ⟨0, 19/2⟩ ⟨100, 19/2⟩ ⟨100, 21/2⟩ ⟨0, 21/2⟩ color
      ∧ (∀ v ∈ emittedVertices (drawLine ⟨0, 10⟩ ⟨100, 10⟩ 1 color),
          inRectanglePts ⟨0, 19/2⟩ ⟨100, 21/2⟩ v)
      ∧ (⟨0, 19/2⟩ : Vec2) ∈
          emittedVertices (drawLine ⟨0, 10⟩ ⟨100, 10⟩ 1 color)
      ∧ (⟨100, 21/2⟩ : Vec2) ∈
          emittedVertices (drawLine ⟨0, 10⟩ ⟨100, 10⟩ 1 color) := by
  intro c
  have hsub : (⟨100, 10⟩ : Vec2) - ⟨0, 10⟩ = ⟨100, 0⟩ := by
    rw [Vec2.sub_def]
    norm_num
  have hmag : Vec2.magnitude ⟨100, 0⟩ = 100 := by
    have hms : Vec2.magnitudeSquared ⟨100, 0⟩ = 10000 := by
      unfold Vec2.magnitudeSquared
      norm_num
    unfold Vec2.magnitude
    rw [hms, ratSqrt_ten_thousand]
  have hn : Vec2.normalizeOpt (⟨100, 0⟩ : Vec2) = some ⟨1, 0⟩ := by
    unfold Vec2.normalizeOpt
    rw [hmag]
    norm_num
  have hn' : ((⟨100, 10⟩ : Vec2) - ⟨0, 10⟩).normalizeOpt =
      some ⟨1, 0⟩ := by
    rw [hsub]
    exact hn
  have heq : drawLine ⟨0, 10⟩ ⟨100, 10⟩ 1 c =
      drawQuad ⟨0, 19/2⟩ ⟨100, 19/2⟩ ⟨100, 21/2⟩ ⟨0, 21/2⟩ c := by
    rw [drawLine_eq_of_normalize_some _ _ _ _ _ hn']
    simp only [Vec2.scale, Vec2.rotate90DegreesAnticlockwise,
      Vec2.rotate90DegreesClockwise, Vec2.add_def]
    norm_num
  refine ⟨heq, ?_, ?_, ?_⟩
  · rw [heq]
    intro v hv
    simp only [emittedVertices, drawQuad, drawQuadFourColor,
      drawTriangleThreeColor, SurfaceCall.vertexList, List.map,
      List.flatten, List.mem_append, List.mem_cons,
      List.not_mem_nil, or_false, List.append_nil,
      List.cons_append, List.nil_append] at hv
    rcases hv with h | h | h | h | h | h <;>
      · subst h
        unfold inRectanglePts
        norm_num
  · rw [heq]
    simp [emittedVertices, drawQuad, drawQuadFourColor,
      drawTriangleThreeColor, SurfaceCall.vertexList]
  · rw [heq]
    simp [emittedVertices, drawQuad, drawQuadFourColor,
      drawTriangleThreeColor, SurfaceCall.vertexList]

/-- Witness for C7: the corner `(0, 9.5)` is among the vertices emitted
for the white line, and by the bounding-box property it lies in the box
`(0, 9.5)`–`(100, 10.5)`. -/
theorem draw_line_bounding_box_witness :
    (⟨0, 19/2⟩ : Vec2) ∈
        emittedVertices (drawLine ⟨0, 10⟩ ⟨100, 10⟩ 1 Color.WHITE)
      ∧ inRectanglePts ⟨0, 19/2⟩ ⟨100, 21/2⟩ ⟨0, 19/2⟩ :=
  ⟨(draw_line_horizontal_unit_thickness_bounding_box Color.WHITE).2.2.1,
    (draw_line_horizontal_unit_thickness_bounding_box Color.WHITE).2.1
      ⟨0, 19/2⟩
      (draw_line_horizontal_unit_thickness_bounding_box
        Color.WHITE).2.2.1⟩

/-- Claim C8 (code bug witness): `draw_text_cropped` ignores its
`crop_window` argument entirely — for every glyph-emission behavior of
the text collaborator, every position, every crop rectangle, every
color and every text block it renders exactly what `draw_text` renders,
so glyphs outside the crop rectangle are not withheld, contradicting
the claim (and the function's own documentation; the body carries a
`TODO need to actually crop` comment). -/
theorem draw_text_cropped_ignores_crop_window :
    ∀ (Text G : Type) (drawTextEx : TextParams → Text → ℚ → ℚ → G)
      (position : Vec2) (cropWindow : Rectangle) (color : Color)
      (block : FormattedTextBlock Text),
      drawTextCropped drawTextEx position cropWindow color block =
        drawText drawTextEx position color block := by
  intro Text G ex pos crop color block
  unfold drawTextCropped drawText
  rw [mul_one]

/-- Claim C9 (code bug witness): `UserEventSenderQuad::send_event`
discards the channel send result and returns `Ok(())` unconditionally,
so posting a user event after the event loop has stopped (receiver
dropped) silently reports success instead of the typed error the claim
requires; the stopped loop's queue is unaffected (the standard channel
rejects the value, as the second conjunct records). -/
theorem send_event_after_loop_stopped_returns_ok :
    ∀ (E : Type) (q : List E) (e : E),
      sendEvent ChannelState.disconnected q e = (q, Except.ok ())
      ∧ (mpscSend ChannelState.disconnected q e).2 = false :=
  fun _ _ _ => ⟨rfl, rfl⟩

/-- Claim C10: `draw_rectangle_image(rect, image)` performs exactly the
same drawing as
`draw_rectangle_image_subset_tinted(rect, Color::WHITE,
Rectangle::new((0,0),(1,1)), image)` — for every behavior of the
textured-triangle leaf — and the common decomposition is the two
textured triangles over the rectangle corners with the full normalized
UV rectangle and white tint at every vertex. -/
theorem draw_rectangle_image_is_white_full_uv_subset :
    ∀ (α : Type)
      (emit : Vec2 × Vec2 × Vec2 → Color × Color × Color →
        Vec2 × Vec2 × Vec2 → ImageHandle → List α)
      (rect : Rectangle) (img : ImageHandle),
      drawRectangleImage emit rect img =
        drawRectangleImageSubsetTinted emit rect Color.WHITE
          ⟨Vec2.ZERO, ⟨1, 1⟩⟩ img
      ∧ drawRectangleImage emit rect img =
        emit (rect.topLeft, rect.topRight, rect.bottomRight)
            (Color.WHITE, Color.WHITE, Color.WHITE)
            (⟨0, 0⟩, ⟨1, 0⟩, ⟨1, 1⟩) img ++
          emit (rect.bottomRight, rect.bottomLeft, rect.topLeft)
            (Color.WHITE, Color.WHITE, Color.WHITE)
            (⟨1, 1⟩, ⟨0, 1⟩, ⟨0, 0⟩) img :=
  fun _ _ _ _ => ⟨rfl, rfl⟩

end Speedy2D
